import Mathlib

/-!
Verification of the fast-link URL shortener (src/app/main.py) against its
specification.  The data model and the three endpoint handlers are embedded
shallowly: the database table is a list of rows, a session-scoped handler is
a function from the store to a result and a new store, and the application
level read-modify-write on the click counter is additionally given a
small-step interleaving model to reason about concurrent resolves.
-/

namespace FastLink

/-- Embeds the SQLAlchemy model DBURL (main.py lines 35-41): columns id
(Integer primary key), key (String, unique), target_url (String),
is_active (Boolean, default True), clicks (Integer, default 0). -/
structure DBURL where
  id : Nat
  key : String
  target_url : String
  is_active : Bool
  clicks : Int
deriving DecidableEq, Repr

/-- The database state: the urls table in insertion order, plus the next
primary-key value the store will assign. -/
structure Store where
  rows : List DBURL
  next_id : Nat
deriving DecidableEq, Repr

/-- The only insert failure mode relevant to the embedded logic: the unique
index on the key column rejects a duplicate key (an IntegrityError raised by
db.commit() in create_url). -/
inductive CreateError where
  | KeyCollision
deriving DecidableEq, Repr

/-- True when some row of the table already holds this key; the unique index
on DBURL.key makes an insert fail exactly in this case. -/
def hasKey (s : Store) (k : String) : Bool :=
  s.rows.any (fun r => r.key == k)

/-- The literal host placeholder used by create_url when rendering the
short URL (main.py line 75). -/
def service_url_base : String := "http://<your-service-ip>/"

/-- Embeds the JSON object returned by the create_url endpoint (main.py
line 75): only a short_url string and the echoed target_url. -/
structure CreateResponse where
  short_url : String
  target_url : String
deriving DecidableEq, Repr

/-- Embeds the create_url endpoint body (main.py lines 68-75) for a given
generated key: build a row with is_active defaulting to true and clicks
defaulting to 0, insert it (the unique index on key rejects a duplicate,
surfacing as an error; nothing is retried), and on success return the
response dict {short_url, target_url}. -/
def create_url (key target_url : String) (s : Store) :
    Except CreateError (CreateResponse × Store) :=
  if hasKey s key then
    Except.error CreateError.KeyCollision
  else
    Except.ok
      ({ short_url := service_url_base ++ key, target_url := target_url },
       { rows := s.rows ++
           [{ id := s.next_id, key := key, target_url := target_url,
              is_active := true, clicks := 0 }],
         next_id := s.next_id + 1 })

/-- Embeds a full create_url request (main.py lines 67-75) against a stream
of generator outputs: line 69 draws exactly one key from the generator
(secrets.token_urlsafe) and the handler performs a single insert attempt
with it; no other generator output is ever consulted. -/
def create_url_endpoint (gen : Nat → String) (target_url : String)
    (s : Store) : Except CreateError (CreateResponse × Store) :=
  create_url (gen 0) target_url s

/-- The filter of the redirect query (main.py line 80): key matches the path
segment and the row is active. -/
def activeMatch (url_key : String) (r : DBURL) : Bool :=
  r.key == url_key && r.is_active

/-- Increment the clicks of the first row satisfying p, leaving every other
row unchanged: the effect of loading one ORM row, adding 1 to its clicks
attribute and committing (main.py lines 82-83). -/
def incFirst (p : DBURL → Bool) : List DBURL → List DBURL
  | [] => []
  | r :: rs =>
      if p r then { r with clicks := r.clicks + 1 } :: rs
      else r :: incFirst p rs

/-- Embeds the redirect_to_url endpoint (main.py lines 79-86): query the
first row whose key matches and whose is_active flag is set; if one exists,
increment its clicks, commit, and redirect to its target_url; otherwise
raise 404 with the store untouched. -/
def redirect_to_url (url_key : String) (s : Store) : Option String × Store :=
  match s.rows.find? (activeMatch url_key) with
  | some r =>
      (some r.target_url,
       { s with rows := incFirst (activeMatch url_key) s.rows })
  | none => (none, s)

/-- Embeds the JSON object returned by the info endpoint (main.py lines
93-98): key, target_url, clicks, is_active - the row id is not included. -/
structure URLInfo where
  key : String
  target_url : String
  clicks : Int
  is_active : Bool
deriving DecidableEq, Repr

/-- Embeds the get_url_info endpoint (main.py lines 90-99): a pure read of
the first row whose key matches, with no active-flag filter and no mutation
or commit; 404 when no row has the key. -/
def get_url_info (url_key : String) (s : Store) : Option URLInfo :=
  (s.rows.find? (fun r => r.key == url_key)).map
    (fun r =>
      { key := r.key, target_url := r.target_url,
        clicks := r.clicks, is_active := r.is_active })

/-- The operations of the core, as invoked by the transport layer. -/
inductive Op where
  | create (key target_url : String)
  | resolve (url_key : String)
  | info (url_key : String)

/-- The store after one endpoint call.  A failed create commits nothing
(the transaction rolls back), a resolve returns its second component, and
get_url_info performs no mutation at all (main.py lines 90-99 contain no
assignment and no commit). -/
def applyOp (s : Store) : Op → Store
  | Op.create k t =>
      match create_url k t s with
      | Except.ok (_, s2) => s2
      | Except.error _ => s
  | Op.resolve k => (redirect_to_url k s).2
  | Op.info _ => s

/-- Run a sequence of create calls (key candidate, target url) in order. -/
def runCreates (s : Store) : List (String × String) → Store
  | [] => s
  | (k, t) :: rest => runCreates (applyOp s (Op.create k t)) rest

/-- The key-uniqueness invariant the unique index maintains: no two rows of
the table share a key. -/
def keysNodup (s : Store) : Prop :=
  (s.rows.map (fun r => r.key)).Nodup

/-- The clicks value of the first row holding key k, if any. -/
def clicksOf (s : Store) (k : String) : Option Int :=
  (s.rows.find? (fun r => r.key == k)).map (fun r => r.clicks)

/-- Iterate n resolve attempts on the same key. -/
def resolveIter : Nat → String → Store → Store
  | 0, _, s => s
  | n + 1, k, s => resolveIter n k (redirect_to_url k s).2

/-! ### Interleaving model of two concurrent resolves of one active key

Each redirect_to_url transaction on the same active row performs, at the
application level, two store accesses (main.py lines 80-84): the ORM query
loads the row and its clicks value into the session (the load step), and
db.commit() after db_url.clicks += 1 writes back the loaded value plus one
as an absolute UPDATE (the commit step).  There is no row lock, no atomic
SQL increment and no serializable transaction between the two steps. -/

/-- Shared clicks cell plus the per-transaction loaded snapshot of two
in-flight resolve transactions on the same active key. -/
structure RaceState where
  clicks : Int
  t1 : Option Int
  t2 : Option Int
deriving DecidableEq, Repr

/-- One store access of transaction 1 or 2: its ORM load or its commit. -/
inductive RaceEvt where
  | load1
  | load2
  | commit1
  | commit2
deriving DecidableEq, Repr

/-- Effect of one access: a load snapshots the current clicks value into the
session; a commit writes back snapshot + 1 as an absolute value (the update
SQLAlchemy emits for db_url.clicks += 1). -/
def raceStep (s : RaceState) : RaceEvt → RaceState
  | RaceEvt.load1 => { s with t1 := some s.clicks }
  | RaceEvt.load2 => { s with t2 := some s.clicks }
  | RaceEvt.commit1 =>
      match s.t1 with
      | some v => { s with clicks := v + 1 }
      | none => s
  | RaceEvt.commit2 =>
      match s.t2 with
      | some v => { s with clicks := v + 1 }
      | none => s

/-- Run a schedule of interleaved accesses. -/
def raceRun (s : RaceState) (evts : List RaceEvt) : RaceState :=
  List.foldl raceStep s evts

/-- Initial state: the active row has clicks = 0, neither transaction has
loaded yet. -/
def raceInit : RaceState := { clicks := 0, t1 := none, t2 := none }

/-- The racy schedule: both transactions load before either commits. -/
def racySched : List RaceEvt :=
  [RaceEvt.load1, RaceEvt.load2, RaceEvt.commit1, RaceEvt.commit2]

/-- The serialized schedule: transaction 1 completes before 2 starts. -/
def serialSched : List RaceEvt :=
  [RaceEvt.load1, RaceEvt.commit1, RaceEvt.load2, RaceEvt.commit2]

/-! ### The key generator

main.py line 69 calls secrets.token_urlsafe(8): 8 bytes from a
cryptographically secure source, base64url-encoded, with the '=' padding
stripped.  The encoding is embedded below over a list of byte values. -/

/-- The 64-character base64url alphabet, in index order. -/
def b64urlAlphabet : List Char :=
  String.toList "ABCDEFGHIJKLMNOPQRSTUVWXYZabcdefghijklmnopqrstuvwxyz0123456789-_"

/-- The alphabet character at a 6-bit index. -/
def b64char (n : Nat) : Char := b64urlAlphabet.getD n 'A'

/-- base64url-encode a byte sequence and strip the '=' padding, exactly as
base64.urlsafe_b64encode(...).rstrip(b'=') does: full 3-byte groups yield 4
characters; a trailing 2-byte group yields 3 characters and a trailing
1-byte group yields 2 (the padding characters being dropped). -/
def b64urlEncodeNoPad : List Nat → List Char
  | [] => []
  | [b0] => [b64char (b0 / 4), b64char (b0 % 4 * 16)]
  | [b0, b1] =>
      [b64char (b0 / 4), b64char (b0 % 4 * 16 + b1 / 16),
       b64char (b1 % 16 * 4)]
  | b0 :: b1 :: b2 :: rest =>
      b64char (b0 / 4) ::
      b64char (b0 % 4 * 16 + b1 / 16) ::
      b64char (b1 % 16 * 4 + b2 / 64) ::
      b64char (b2 % 64) ::
      b64urlEncodeNoPad rest

/-- Embeds secrets.token_urlsafe applied to a drawn byte sequence: the
base64url encoding without padding, as a string. -/
def token_urlsafe (bytes : List Nat) : String :=
  String.mk (b64urlEncodeNoPad bytes)

/-! ### Concrete instances used by counterexamples -/

/-- A store holding one active mapping with key k1. -/
def s_k1 : Store :=
  { rows := [{ id := 1, key := "k1", target_url := "t1",
               is_active := true, clicks := 0 }],
    next_id := 2 }

/-- A generator whose first candidate k1 is already used in s_k1 and whose
second candidate k2 is fresh. -/
def gen_then_fresh : Nat → String :=
  fun n => if n = 0 then "k1" else "k2"

/-- A generator every candidate of which is the already-used key k1. -/
def gen_always_used : Nat → String := fun _ => "k1"

/-- A store holding one deactivated mapping with key kz and 5 recorded
clicks. -/
def s_inactive : Store :=
  { rows := [{ id := 7, key := "kz", target_url := "tz",
               is_active := false, clicks := 5 }],
    next_id := 8 }

/-- An empty store whose next assigned id is 1. -/
def emptyStoreA : Store := { rows := [], next_id := 1 }

/-- An empty store whose next assigned id is 42. -/
def emptyStoreB : Store := { rows := [], next_id := 42 }

/-! ### Helper lemmas -/

/-- When a key is absent from the table, no row's key column matches it. -/
lemma hasKey_false_forall {s : Store} {k : String} (h : hasKey s k = false) :
    ∀ r ∈ s.rows, (r.key == k) = false := by
  intro r hr
  by_contra hne
  have : s.rows.any (fun r => r.key == k) = true :=
    List.any_eq_true.mpr ⟨r, hr, by simpa using hne⟩
  rw [hasKey] at h
  rw [h] at this
  exact Bool.false_ne_true this

/-- The full behaviour of a create with a fresh key: the stored row is fully
populated and the response carries only the rendered short URL and the
echoed target. -/
lemma create_url_fresh {key t : String} {s : Store}
    (h : hasKey s key = false) :
    create_url key t s = Except.ok
      ({ short_url := service_url_base ++ key, target_url := t },
       { rows := s.rows ++
           [{ id := s.next_id, key := key, target_url := t,
              is_active := true, clicks := 0 }],
         next_id := s.next_id + 1 }) := by
  simp [create_url, h]

/-- A create with an already-used key fails with the uniqueness error. -/
lemma create_url_taken {key t : String} {s : Store}
    (h : hasKey s key = true) :
    create_url key t s = Except.error CreateError.KeyCollision := by
  simp [create_url, h]

/-- A successful create implies the key was fresh. -/
lemma create_ok_hasKey_false {key t : String} {s s2 : Store}
    {resp : CreateResponse}
    (h : create_url key t s = Except.ok (resp, s2)) :
    hasKey s key = false := by
  cases hhk : hasKey s key
  · rfl
  · rw [create_url_taken hhk] at h
    exact absurd h (by simp)

/-- A successful create appends exactly the fully populated fresh row. -/
lemma create_ok_store {key t : String} {s s2 : Store}
    {resp : CreateResponse}
    (h : create_url key t s = Except.ok (resp, s2)) :
    s2 = { rows := s.rows ++
             [{ id := s.next_id, key := key, target_url := t,
                is_active := true, clicks := 0 }],
           next_id := s.next_id + 1 } := by
  rw [create_url_fresh (create_ok_hasKey_false h)] at h
  have := (Except.ok.inj h)
  exact (Prod.mk.injEq _ _ _ _).mp this |>.2.symm

/-- Every character the encoder can emit (index below 64) is a letter, a
digit, a hyphen or an underscore, and is not the padding character. -/
lemma b64char_urlsafe :
    ∀ n, n < 64 →
      ((b64char n).isAlpha ∨ (b64char n).isDigit ∨ b64char n = '-' ∨
        b64char n = '_') ∧ b64char n ≠ '=' := by
  decide

/-! ### Theorems for the claims -/

/-- C1: the application-level read-modify-write of redirect_to_url loses
updates: starting from clicks = 0, the interleaving in which both resolve
transactions load the row before either commits leaves clicks = 1 after two
successful resolves, not the pre-call value plus 2; only the fully
serialized schedule yields 2.  The read-check-increment sequence is
therefore not atomic with respect to concurrent resolves of the same
key. -/
theorem resolve_lost_update :
    (raceRun raceInit racySched).clicks = 1 ∧
    (raceRun raceInit serialSched).clicks = 2 ∧
    (raceRun raceInit racySched).clicks ≠ raceInit.clicks + 2 := by
  refine ⟨rfl, rfl, by decide⟩

/-- C9: the token of any 8-byte draw is an 11-character string over the
URL-safe alphabet of letters, digits, hyphen and underscore, with no
padding character. -/
theorem token_urlsafe_format (bytes : List Nat) (hlen : bytes.length = 8)
    (hbyte : ∀ b ∈ bytes, b < 256) :
    (token_urlsafe bytes).length = 11 ∧
    ∀ c ∈ (token_urlsafe bytes).toList,
      (c.isAlpha ∨ c.isDigit ∨ c = '-' ∨ c = '_') ∧ c ≠ '=' := by
  rcases bytes with _ | ⟨b0, bytes⟩; · simp at hlen
  rcases bytes with _ | ⟨b1, bytes⟩; · simp at hlen
  rcases bytes with _ | ⟨b2, bytes⟩; · simp at hlen
  rcases bytes with _ | ⟨b3, bytes⟩; · simp at hlen
  rcases bytes with _ | ⟨b4, bytes⟩; · simp at hlen
  rcases bytes with _ | ⟨b5, bytes⟩; · simp at hlen
  rcases bytes with _ | ⟨b6, bytes⟩; · simp at hlen
  rcases bytes with _ | ⟨b7, bytes⟩; · simp at hlen
  rcases bytes with _ | ⟨b8, bytes⟩
  · have h0 : b0 < 256 := hbyte b0 (by simp)
    have h1 : b1 < 256 := hbyte b1 (by simp)
    have h2 : b2 < 256 := hbyte b2 (by simp)
    have h3 : b3 < 256 := hbyte b3 (by simp)
    have h4 : b4 < 256 := hbyte b4 (by simp)
    have h5 : b5 < 256 := hbyte b5 (by simp)
    have h6 : b6 < 256 := hbyte b6 (by simp)
    have h7 : b7 < 256 := hbyte b7 (by simp)
    refine ⟨rfl, ?_⟩
    intro c hc
    have hc9 : c ∈
        [b64char (b0 / 4), b64char (b0 % 4 * 16 + b1 / 16),
         b64char (b1 % 16 * 4 + b2 / 64), b64char (b2 % 64),
         b64char (b3 / 4), b64char (b3 % 4 * 16 + b4 / 16),
         b64char (b4 % 16 * 4 + b5 / 64), b64char (b5 % 64),
         b64char (b6 / 4), b64char (b6 % 4 * 16 + b7 / 16),
         b64char (b7 % 16 * 4)] := hc
    simp only [List.mem_cons, List.not_mem_nil, or_false] at hc9
    rcases hc9 with h | h | h | h | h | h | h | h | h | h | h <;>
      (subst h; exact b64char_urlsafe _ (by omega))
  · simp at hlen


/-- C4: a successful create of target t followed by a resolve of the key of
the newly created mapping returns exactly t. -/
theorem create_resolve_round_trip (key t : String) (s s2 : Store)
    (resp : CreateResponse)
    (h : create_url key t s = Except.ok (resp, s2)) :
    (redirect_to_url key s2).1 = some t := by
  have hfresh := create_ok_hasKey_false h
  have hs2 := create_ok_store h
  subst hs2
  have hnone : s.rows.find? (activeMatch key) = none := by
    rw [List.find?_eq_none]
    intro r hr
    simp [activeMatch, hasKey_false_forall hfresh r hr]
  unfold redirect_to_url
  rw [List.find?_append, hnone]
  simp [activeMatch]

/-- C4 witness: the round trip at a concrete input. -/
theorem create_resolve_round_trip_witness :
    create_url "kw" "https://example.com/page" emptyStoreA = Except.ok
      ({ short_url := service_url_base ++ "kw",
         target_url := "https://example.com/page" },
       { rows := emptyStoreA.rows ++
           [{ id := emptyStoreA.next_id, key := "kw",
              target_url := "https://example.com/page",
              is_active := true, clicks := 0 }],
         next_id := emptyStoreA.next_id + 1 }) ∧
    (redirect_to_url "kw"
      { rows := emptyStoreA.rows ++
          [{ id := emptyStoreA.next_id, key := "kw",
             target_url := "https://example.com/page",
             is_active := true, clicks := 0 }],
        next_id := emptyStoreA.next_id + 1 }).1 =
      some "https://example.com/page" := by
  constructor
  · exact create_url_fresh (by decide)
  · exact create_resolve_round_trip "kw" "https://example.com/page"
      emptyStoreA _ _ (create_url_fresh (by decide))

/-- C10: create validates nothing about target_url: any string, the empty
string included, is accepted and stored verbatim in the new row. -/
theorem create_url_no_validation (key t : String) (s : Store)
    (h : hasKey s key = false) :
    create_url key t s = Except.ok
      ({ short_url := service_url_base ++ key, target_url := t },
       { rows := s.rows ++
           [{ id := s.next_id, key := key, target_url := t,
              is_active := true, clicks := 0 }],
         next_id := s.next_id + 1 }) := by
  simp [create_url, h]

/-- C10 witness: create accepts the empty string and a non-URL string,
storing each verbatim. -/
theorem create_url_no_validation_witness :
    (hasKey emptyStoreA "kx" = false ∧
      create_url "kx" "" emptyStoreA = Except.ok
        ({ short_url := service_url_base ++ "kx", target_url := "" },
         { rows := emptyStoreA.rows ++
             [{ id := emptyStoreA.next_id, key := "kx", target_url := "",
                is_active := true, clicks := 0 }],
           next_id := emptyStoreA.next_id + 1 })) ∧
    (hasKey emptyStoreA "ky" = false ∧
      create_url "ky" "not a url at all" emptyStoreA = Except.ok
        ({ short_url := service_url_base ++ "ky",
           target_url := "not a url at all" },
         { rows := emptyStoreA.rows ++
             [{ id := emptyStoreA.next_id, key := "ky",
                target_url := "not a url at all",
                is_active := true, clicks := 0 }],
           next_id := emptyStoreA.next_id + 1 })) :=
  ⟨⟨by decide, create_url_no_validation "kx" "" emptyStoreA (by decide)⟩,
   ⟨by decide,
    create_url_no_validation "ky" "not a url at all" emptyStoreA
      (by decide)⟩⟩

/-- C8 counterexample: two creates of the same key and target on stores
whose next assigned ids differ (1 versus 42) return identical responses,
while the stored rows receive the different ids; the response therefore
does not include the assigned internal identifier, and it carries no
is_active or clicks field at all. -/
theorem create_response_omits_id_cex :
    create_url "k" "t" emptyStoreA = Except.ok
      ({ short_url := service_url_base ++ "k", target_url := "t" },
       { rows := [{ id := 1, key := "k", target_url := "t",
                    is_active := true, clicks := 0 }],
         next_id := 2 }) ∧
    create_url "k" "t" emptyStoreB = Except.ok
      ({ short_url := service_url_base ++ "k", target_url := "t" },
       { rows := [{ id := 42, key := "k", target_url := "t",
                    is_active := true, clicks := 0 }],
         next_id := 43 }) ∧
    (1 : Nat) ≠ 42 := by
  refine ⟨rfl, rfl, by decide⟩

/-- C8 (amended): a successful create stores the fully populated record
(store-assigned id, key, target_url, is_active true, clicks 0) but returns
only the rendered short URL and the echoed target_url; the response is the
same for any store state that accepts the key, so it does not include the
assigned internal identifier. -/
theorem create_response_and_stored_record (key t : String)
    (sa sb : Store) (pa pb : CreateResponse) (ra rb : Store)
    (ea : create_url key t sa = Except.ok (pa, ra))
    (eb : create_url key t sb = Except.ok (pb, rb)) :
    pa = pb ∧
    pa = { short_url := service_url_base ++ key, target_url := t } ∧
    ra.rows = sa.rows ++
      [{ id := sa.next_id, key := key, target_url := t,
         is_active := true, clicks := 0 }] := by
  rw [create_url_fresh (create_ok_hasKey_false ea)] at ea
  rw [create_url_fresh (create_ok_hasKey_false eb)] at eb
  have ha := (Prod.mk.injEq _ _ _ _).mp (Except.ok.inj ea)
  have hb := (Prod.mk.injEq _ _ _ _).mp (Except.ok.inj eb)
  refine ⟨ha.1.symm.trans hb.1, ha.1.symm, ?_⟩
  rw [← ha.2]

/-- C8 witness: the response/stored-record split at concrete inputs. -/
theorem create_response_and_stored_record_witness :
    ({ short_url := service_url_base ++ "k", target_url := "t" }
        : CreateResponse) =
      { short_url := service_url_base ++ "k", target_url := "t" } ∧
    ({ short_url := service_url_base ++ "k", target_url := "t" }
        : CreateResponse) =
      { short_url := service_url_base ++ "k", target_url := "t" } ∧
    ({ rows := [{ id := 1, key := "k", target_url := "t",
                  is_active := true, clicks := 0 }],
       next_id := 2 } : Store).rows = emptyStoreA.rows ++
      [{ id := emptyStoreA.next_id, key := "k", target_url := "t",
         is_active := true, clicks := 0 }] :=
  create_response_and_stored_record "k" "t" emptyStoreA emptyStoreB _ _ _ _
    (create_url_fresh (by decide)) (create_url_fresh (by decide))

/-- C2 counterexample: with the generator producing the already-used key k1
and then the fresh key k2, create does not succeed with k2; it fails at
once with the uniqueness conflict, which is therefore visible to the
caller. -/
theorem create_no_retry_cex :
    hasKey s_k1 "k1" = true ∧
    hasKey s_k1 "k2" = false ∧
    create_url_endpoint gen_then_fresh "target" s_k1 =
      Except.error CreateError.KeyCollision := by
  refine ⟨by decide, by decide, rfl⟩

/-- C2 (amended): a key-uniqueness conflict is not retried: when the first
generated key is taken, create surfaces the conflict to the caller, and its
outcome depends only on that first generator output, so no second candidate
is ever consulted. -/
theorem create_collision_not_retried (gen : Nat → String) (t : String)
    (s : Store) (h : hasKey s (gen 0) = true) :
    create_url_endpoint gen t s = Except.error CreateError.KeyCollision ∧
    ∀ gen2 : Nat → String, gen2 0 = gen 0 →
      create_url_endpoint gen2 t s = create_url_endpoint gen t s := by
  constructor
  · rw [create_url_endpoint]
    exact create_url_taken h
  · intro gen2 hg
    rw [create_url_endpoint, create_url_endpoint, hg]

/-- C2 witness: the no-retry behaviour at the concrete collision input. -/
theorem create_collision_not_retried_witness :
    create_url_endpoint gen_then_fresh "target" s_k1 =
      Except.error CreateError.KeyCollision ∧
    create_url_endpoint gen_always_used "target" s_k1 =
      create_url_endpoint gen_then_fresh "target" s_k1 := by
  have h := create_collision_not_retried gen_then_fresh "target" s_k1
    (by decide)
  exact ⟨h.1, h.2 gen_always_used (by decide)⟩

/-- C3 counterexample: with a generator all of whose candidates are already
used, create fails on its sole insert attempt with the key-uniqueness
error - not with a KeyGenerationExhausted error after a cap of attempts:
the endpoint result coincides with a single create_url attempt on the
first candidate. -/
theorem create_no_exhaustion_cap_cex :
    hasKey s_k1 "k1" = true ∧
    create_url_endpoint gen_always_used "target2" s_k1 =
      Except.error CreateError.KeyCollision ∧
    create_url_endpoint gen_always_used "target2" s_k1 =
      create_url (gen_always_used 0) "target2" s_k1 := by
  refine ⟨by decide, rfl, rfl⟩

/-- C3 (amended): there is no retry loop and no exhaustion error: when
every candidate the generator can produce is already used, create fails
immediately with the key-uniqueness conflict of its single attempt. -/
theorem create_always_collide_fails_first (gen : Nat → String)
    (t : String) (s : Store) (h : ∀ n, hasKey s (gen n) = true) :
    create_url_endpoint gen t s = Except.error CreateError.KeyCollision := by
  rw [create_url_endpoint]
  exact create_url_taken (h 0)

/-- C3 witness: the immediate failure at the concrete always-colliding
generator. -/
theorem create_always_collide_fails_first_witness :
    create_url_endpoint gen_always_used "t3" s_k1 =
      Except.error CreateError.KeyCollision :=
  create_always_collide_fails_first gen_always_used "t3" s_k1
    (fun _ => rfl)

/-- C9 witness: the token of a concrete 8-byte draw. -/
theorem token_urlsafe_format_witness :
    (token_urlsafe [0, 1, 2, 250, 4, 5, 6, 255]).length = 11 ∧
    token_urlsafe [0, 1, 2, 250, 4, 5, 6, 255] = "AAEC-gQFBv8" :=
  ⟨(token_urlsafe_format [0, 1, 2, 250, 4, 5, 6, 255] rfl (by decide)).1,
   by decide⟩

/-- One create call preserves the key-uniqueness invariant: a fresh key is
appended and was not present, a taken key makes the insert fail and commits
nothing. -/
lemma applyOp_create_keysNodup {s : Store} (h : keysNodup s)
    (k t : String) : keysNodup (applyOp s (Op.create k t)) := by
  simp only [applyOp]
  cases hhk : hasKey s k
  · rw [create_url_fresh hhk]
    rw [keysNodup] at h ⊢
    simp only [List.map_append, List.map_cons, List.map_nil]
    rw [List.nodup_append]
    refine ⟨h, List.nodup_singleton _, ?_⟩
    intro x hx hx1
    simp only [List.mem_singleton] at hx1
    obtain ⟨r, hr, hrk⟩ := List.mem_map.mp hx
    have := hasKey_false_forall hhk r hr
    rw [hx1] at hrk
    simp [hrk] at this
  · rw [create_url_taken hhk]
    exact h

/-- C6: starting from any store satisfying the uniqueness invariant, no
sequence of create calls, whatever keys its generator produces, can make
two rows (active or inactive) share a key: the store boundary rejects a
duplicate key regardless of how it was generated. -/
theorem create_keys_unique (calls : List (String × String)) (s : Store)
    (h : keysNodup s) : keysNodup (runCreates s calls) := by
  induction calls generalizing s with
  | nil => exact h
  | cons c rest ih =>
      obtain ⟨k, t⟩ := c
      rw [runCreates]
      exact ih _ (applyOp_create_keysNodup h k t)

/-- C6 witness: a concrete create sequence with an adversarial repeated
key still yields pairwise-distinct keys. -/
theorem create_keys_unique_witness :
    keysNodup
      (runCreates emptyStoreA
        [("a", "t1"), ("a", "t2"), ("b", "t3"), ("a", "t4")]) :=
  create_keys_unique [("a", "t1"), ("a", "t2"), ("b", "t3"), ("a", "t4")]
    emptyStoreA (by rw [keysNodup]; decide)

/-- Under the key-uniqueness invariant, any two rows holding the same key
are one and the same row. -/
lemma nodup_key_unique :
    ∀ rows : List DBURL, (rows.map (fun r => r.key)).Nodup →
      ∀ r ∈ rows, ∀ x ∈ rows, x.key = r.key → x = r := by
  intro rows
  induction rows with
  | nil => intro _ r hr; cases hr
  | cons a as ih =>
      intro hnd r hr x hx hk
      rw [List.map_cons, List.nodup_cons] at hnd
      rcases List.mem_cons.mp hr with hra | hra <;>
        rcases List.mem_cons.mp hx with hxa | hxa
      · rw [hxa, hra]
      · exfalso
        apply hnd.1
        rw [← hra, ← hk]
        exact List.mem_map_of_mem (fun r => r.key) hxa
      · exfalso
        apply hnd.1
        rw [← hxa, hk]
        exact List.mem_map_of_mem (fun r => r.key) hra
      · exact ih hnd.2 r hra x hxa hk

/-- Under the key-uniqueness invariant, the lookup by key of a stored row
finds exactly that row. -/
lemma find?_key_of_nodup :
    ∀ rows : List DBURL, (rows.map (fun r => r.key)).Nodup →
      ∀ r ∈ rows, ∀ k : String, r.key = k →
        rows.find? (fun x => x.key == k) = some r := by
  intro rows
  induction rows with
  | nil => intro _ r hr; cases hr
  | cons a as ih =>
      intro hnd r hr k hk
      rw [List.map_cons, List.nodup_cons] at hnd
      rcases List.mem_cons.mp hr with hra | hra
      · subst hra
        rw [List.find?_cons_of_pos _ (by simp [hk])]
      · have hak : (a.key == k) = false := by
          simp only [beq_eq_false_iff_ne, ne_eq]
          intro hc
          apply hnd.1
          rw [hc, ← hk]
          exact List.mem_map_of_mem (fun r => r.key) hra
        rw [List.find?_cons_of_neg _ (by simp [hak])]
        exact ih hnd.2 r hra k hk

/-- C5: for a deactivated mapping, resolve returns not-found and leaves the
store (hence the click counter) untouched, while inspect still returns the
full record with its last-known clicks value, unchanged by any number of
further resolve attempts. -/
theorem inactive_mapping_visibility (s : Store) (k : String) (r : DBURL)
    (hnd : keysNodup s) (hr : r ∈ s.rows) (hk : r.key = k)
    (hin : r.is_active = false) :
    (redirect_to_url k s).1 = none ∧
    (redirect_to_url k s).2 = s ∧
    get_url_info k s = some
      { key := r.key, target_url := r.target_url,
        clicks := r.clicks, is_active := false } ∧
    ∀ n, get_url_info k (resolveIter n k s) = get_url_info k s := by
  have hmatch : ∀ x ∈ s.rows, activeMatch k x = false := by
    intro x hx
    by_cases hxk : x.key = k
    · have hxr : x = r := nodup_key_unique s.rows hnd r hr x hx
        (hxk.trans hk.symm)
      rw [hxr, activeMatch, hin, Bool.and_false]
    · simp [activeMatch, hxk]
  have hfind : s.rows.find? (activeMatch k) = none :=
    List.find?_eq_none.mpr (by intro x hx; simp [hmatch x hx])
  have hred : redirect_to_url k s = (none, s) := by
    rw [redirect_to_url, hfind]
  refine ⟨by rw [hred], by rw [hred], ?_, ?_⟩
  · rw [get_url_info, find?_key_of_nodup s.rows hnd r hr k hk,
      Option.map_some', hin]
  · intro n
    induction n with
    | zero => rfl
    | succ m ihm =>
        rw [resolveIter, hred]
        exact ihm

/-- C5 witness: the deactivated concrete mapping kz. -/
theorem inactive_mapping_visibility_witness :
    (redirect_to_url "kz" s_inactive).1 = none ∧
    (redirect_to_url "kz" s_inactive).2 = s_inactive ∧
    get_url_info "kz" s_inactive = some
      { key := "kz", target_url := "tz", clicks := 5,
        is_active := false } ∧
    get_url_info "kz" (resolveIter 3 "kz" s_inactive) =
      get_url_info "kz" s_inactive := by
  have h := inactive_mapping_visibility s_inactive "kz"
    { id := 7, key := "kz", target_url := "tz",
      is_active := false, clicks := 5 }
    (by rw [keysNodup]; decide) (by decide) rfl rfl
  exact ⟨h.1, h.2.1, h.2.2.1, h.2.2.2 3⟩

/-- The click counter read off by key never decreases when the first row
matching any predicate gets its counter incremented. -/
lemma clicks_find_mono_incFirst (p : DBURL → Bool) (k : String) :
    ∀ rows : List DBURL, ∀ v v2 : Int,
      (rows.find? (fun x => x.key == k)).map (fun x => x.clicks) = some v →
      ((incFirst p rows).find? (fun x => x.key == k)).map
          (fun x => x.clicks) = some v2 →
      v ≤ v2 := by
  intro rows
  induction rows with
  | nil =>
      intro v v2 h1 _
      exact absurd h1 (by simp)
  | cons a as ih =>
      intro v v2 h1 h2
      rw [incFirst] at h2
      by_cases hp : p a = true
      · rw [if_pos hp] at h2
        by_cases hak : (a.key == k) = true
        · rw [List.find?_cons_of_pos (p := fun x => x.key == k) as hak]
            at h1
          rw [List.find?_cons_of_pos (p := fun x => x.key == k)
              (a := { a with clicks := a.clicks + 1 }) as hak] at h2
          simp at h1 h2
          omega
        · rw [List.find?_cons_of_neg (p := fun x => x.key == k) as
              (by simp [hak])] at h1
          rw [List.find?_cons_of_neg (p := fun x => x.key == k)
              (a := { a with clicks := a.clicks + 1 }) as
              (by simp [hak])] at h2
          have e := h1.symm.trans h2
          exact le_of_eq (Option.some.inj e)
      · rw [if_neg hp] at h2
        by_cases hak : (a.key == k) = true
        · rw [List.find?_cons_of_pos (p := fun x => x.key == k) as hak]
            at h1
          rw [List.find?_cons_of_pos (p := fun x => x.key == k)
              (incFirst p as) hak] at h2
          simp only [Option.map_some'] at h1 h2
          have e1 := Option.some.inj h1
          have e2 := Option.some.inj h2
          omega
        · rw [List.find?_cons_of_neg (p := fun x => x.key == k) as
              (by simp [hak])] at h1
          rw [List.find?_cons_of_neg (p := fun x => x.key == k)
              (incFirst p as) (by simp [hak])] at h2
          exact ih v v2 h1 h2

/-- Every row after an incFirst is a row of the original list with its
counter kept or incremented by one. -/
lemma incFirst_clicks_cases (p : DBURL → Bool) :
    ∀ rows : List DBURL, ∀ x ∈ incFirst p rows,
      ∃ y ∈ rows, x.clicks = y.clicks ∨ x.clicks = y.clicks + 1 := by
  intro rows
  induction rows with
  | nil => intro x hx; simp [incFirst] at hx
  | cons a as ih =>
      intro x hx
      rw [incFirst] at hx
      by_cases hp : p a = true
      · rw [if_pos hp] at hx
        rcases List.mem_cons.mp hx with h | h
        · exact ⟨a, List.mem_cons_self a as, Or.inr (by rw [h])⟩
        · exact ⟨x, List.mem_cons_of_mem a h, Or.inl rfl⟩
      · rw [if_neg hp] at hx
        rcases List.mem_cons.mp hx with h | h
        · exact ⟨a, List.mem_cons_self a as, Or.inl (by rw [h])⟩
        · obtain ⟨y, hy, hc⟩ := ih x h
          exact ⟨y, List.mem_cons_of_mem a hy, hc⟩

/-- Under the key-uniqueness invariant, when the resolve query finds row r,
the counter read off by key was r's and becomes exactly r's plus one. -/
lemma resolve_success_clicks (k : String) :
    ∀ rows : List DBURL, (rows.map (fun r => r.key)).Nodup →
      ∀ r, rows.find? (activeMatch k) = some r →
        (rows.find? (fun x => x.key == k)).map (fun x => x.clicks) =
          some r.clicks ∧
        ((incFirst (activeMatch k) rows).find? (fun x => x.key == k)).map
            (fun x => x.clicks) = some (r.clicks + 1) := by
  intro rows
  induction rows with
  | nil => intro _ r hf; exact absurd hf (by simp)
  | cons a as ih =>
      intro hnd r hf
      rw [List.map_cons, List.nodup_cons] at hnd
      by_cases hpa : activeMatch k a = true
      · rw [List.find?_cons_of_pos _ hpa] at hf
        have har : a = r := Option.some.inj hf
        have hpa2 : a.key = k ∧ a.is_active = true := by
          simpa [activeMatch] using hpa
        have hak : (a.key == k) = true := by simp [hpa2.1]
        constructor
        · rw [List.find?_cons_of_pos (p := fun x => x.key == k) as hak,
            Option.map_some', har]
        · rw [incFirst, if_pos hpa,
            List.find?_cons_of_pos (p := fun x => x.key == k)
              (a := { a with clicks := a.clicks + 1 }) as hak,
            Option.map_some', har]
      · rw [List.find?_cons_of_neg _ hpa] at hf
        have hrin : r ∈ as := List.mem_of_find?_eq_some hf
        have hrmatch : activeMatch k r = true := List.find?_some hf
        have hrk : r.key = k := by
          have hr2 : r.key = k ∧ r.is_active = true := by
            simpa [activeMatch] using hrmatch
          exact hr2.1
        have hak : (a.key == k) = false := by
          rw [beq_eq_false_iff_ne, ne_eq]
          intro hc
          apply hnd.1
          rw [hc, ← hrk]
          exact List.mem_map_of_mem (fun r => r.key) hrin
        obtain ⟨ih1, ih2⟩ := ih hnd.2 r hf
        constructor
        · rw [List.find?_cons_of_neg (p := fun x => x.key == k) as
              (by simp [hak])]
          exact ih1
        · rw [incFirst, if_neg hpa,
            List.find?_cons_of_neg (p := fun x => x.key == k)
              (incFirst (activeMatch k) as) (by simp [hak])]
          exact ih2

/-- C7: the click counter starts at 0 on creation, never decreases under
any operation, increases by exactly 1 on a successful resolve of an active
key under the uniqueness invariant, and is untouched by a failed resolve
and by inspection; it stays non-negative under every operation. -/
theorem clicks_counter_invariants (s : Store) :
    (∀ key t : String, ∀ resp : CreateResponse, ∀ s2 : Store,
        create_url key t s = Except.ok (resp, s2) →
        s2.rows.map (fun r => r.clicks) =
          s.rows.map (fun r => r.clicks) ++ [0]) ∧
    (∀ op : Op, ∀ k : String, ∀ v v2 : Int, clicksOf s k = some v →
        clicksOf (applyOp s op) k = some v2 → v ≤ v2) ∧
    (∀ k u : String, keysNodup s → (redirect_to_url k s).1 = some u →
        clicksOf (redirect_to_url k s).2 k =
          (clicksOf s k).map (fun v => v + 1)) ∧
    (∀ k : String, (redirect_to_url k s).1 = none →
        (redirect_to_url k s).2 = s) ∧
    (∀ k : String, applyOp s (Op.info k) = s) ∧
    ((∀ r ∈ s.rows, 0 ≤ r.clicks) → ∀ op : Op,
        ∀ r ∈ (applyOp s op).rows, 0 ≤ r.clicks) := by
  refine ⟨?_, ?_, ?_, ?_, ?_, ?_⟩
  · intro key t resp s2 h
    rw [create_ok_store h]
    simp
  · intro op k v v2 h1 h2
    cases op with
    | create k2 t =>
        simp only [applyOp] at h2
        cases hhk : hasKey s k2
        · simp only [create_url_fresh hhk] at h2
          simp only [clicksOf] at h1 h2
          obtain ⟨x, hx, hxc⟩ := Option.map_eq_some'.mp h1
          rw [List.find?_append, hx] at h2
          simp at h2
          omega
        · simp only [create_url_taken hhk] at h2
          rw [h1] at h2
          exact le_of_eq (Option.some.inj h2)
    | resolve k2 =>
        simp only [applyOp] at h2
        cases hf : s.rows.find? (activeMatch k2) with
        | none =>
            simp only [redirect_to_url, hf] at h2
            rw [h1] at h2
            exact le_of_eq (Option.some.inj h2)
        | some r =>
            simp only [redirect_to_url, hf] at h2
            simp only [clicksOf] at h1 h2
            exact clicks_find_mono_incFirst (activeMatch k2) k s.rows
              v v2 h1 h2
    | info k2 =>
        simp only [applyOp] at h2
        rw [h1] at h2
        exact le_of_eq (Option.some.inj h2)
  · intro k u hnd hsucc
    cases hf : s.rows.find? (activeMatch k) with
    | none =>
        simp only [redirect_to_url, hf] at hsucc
        exact absurd hsucc (by simp)
    | some r =>
        obtain ⟨hc1, hc2⟩ := resolve_success_clicks k s.rows hnd r hf
        simp only [redirect_to_url, hf]
        simp only [clicksOf] at hc1 hc2 ⊢
        rw [hc2, hc1]
        rfl
  · intro k h
    cases hf : s.rows.find? (activeMatch k) with
    | none => simp only [redirect_to_url, hf]
    | some r =>
        simp only [redirect_to_url, hf] at h
        exact absurd h (by simp)
  · intro k
    rfl
  · intro hpos op r hr
    cases op with
    | create k2 t =>
        simp only [applyOp] at hr
        cases hhk : hasKey s k2
        · simp only [create_url_fresh hhk] at hr
          rcases List.mem_append.mp hr with h | h
          · exact hpos r h
          · simp only [List.mem_singleton] at h
            rw [h]
        · simp only [create_url_taken hhk] at hr
          exact hpos r hr
    | resolve k2 =>
        simp only [applyOp] at hr
        cases hf : s.rows.find? (activeMatch k2) with
        | none =>
            simp only [redirect_to_url, hf] at hr
            exact hpos r hr
        | some x =>
            simp only [redirect_to_url, hf] at hr
            obtain ⟨y, hy, hc⟩ := incFirst_clicks_cases (activeMatch k2)
              s.rows r hr
            have := hpos y hy
            rcases hc with h | h <;> omega
    | info k2 => exact hpos r hr

/-- C7 witness: the counter facts at concrete inputs: creation starts at 0,
the resolve of the active key k1 takes its counter from 0 to exactly 1,
failed resolves and inspection leave the store unchanged, and the counter
stays non-negative. -/
theorem clicks_counter_invariants_witness :
    (({ rows := s_k1.rows ++
          [{ id := s_k1.next_id, key := "k9", target_url := "t9",
             is_active := true, clicks := 0 }],
        next_id := s_k1.next_id + 1 } : Store).rows.map
          (fun r => r.clicks) =
      s_k1.rows.map (fun r => r.clicks) ++ [0]) ∧
    ((0 : Int) ≤ 1) ∧
    (clicksOf (redirect_to_url "k1" s_k1).2 "k1" =
      (clicksOf s_k1 "k1").map (fun v => v + 1)) ∧
    ((redirect_to_url "nokey" s_k1).2 = s_k1) ∧
    (applyOp s_k1 (Op.info "k1") = s_k1) ∧
    (0 : Int) ≤
      ({ id := 1, key := "k1", target_url := "t1", is_active := true,
         clicks := 1 } : DBURL).clicks := by
  have h := clicks_counter_invariants s_k1
  refine ⟨?_, ?_, ?_, ?_, ?_, ?_⟩
  · exact h.1 "k9" "t9" _ _ (create_url_fresh (by decide))
  · exact h.2.1 (Op.resolve "k1") "k1" 0 1 (by decide) (by decide)
  · exact h.2.2.1 "k1" "t1" (by rw [keysNodup]; decide) (by decide)
  · exact h.2.2.2.1 "nokey" (by decide)
  · exact h.2.2.2.2.1 "k1"
  · exact h.2.2.2.2.2 (by decide) (Op.resolve "k1")
      { id := 1, key := "k1", target_url := "t1", is_active := true,
        clicks := 1 } (by decide)

end FastLink
